import Mathlib

/-!
Verification of the FIDO2 backend (src/backend/app) against its
natural-language specification.

The development shallowly embeds the Python source:

* `redis_store.py` — the ephemeral challenge store backed by Redis, modelled
  as an association list of entries with absolute expiry times.  The
  `GET`+`DEL` pipeline of `pop_state` runs as a Redis MULTI/EXEC transaction
  (redis-py `pipeline()` defaults to `transaction=True`), so it is modelled
  as a single atomic step.
* `fido2.utils.websafe_encode` / `websafe_decode` — URL-safe base64 without
  padding, over byte strings modelled as `List Nat` with each element < 256.
* `cbor2.dumps` / `cbor2.loads` — restricted to the value shapes the routes
  actually serialize (flat maps of integers, byte strings and text strings:
  the ceremony state dict and the COSE public-key map), following RFC 8949
  shortest-form headers as produced by cbor2.
* `models.py`, `db.py`, `routes/fido.py` — the relational state and the four
  ceremony endpoints, with the fido2 library verification calls
  (`register_complete`, `authenticate_complete`) abstracted as parameters
  giving their outcome, since their internals are external library code.
-/

namespace Fido2Backend

/-! ## Challenge store (redis_store.py) -/

/-- A value stored in Redis by the routes.  `set_state` is always called with
a dict that is either `{"state": ..., "user_id": ...}` (registration) or
`{"state": ...}` (authentication); `json.dumps`/`json.loads` round-trips
these exactly, so the JSON layer is modelled as the identity and the store
holds the dict itself.  The `state` field is the websafe-encoded CBOR blob,
a text string modelled as its list of character codes. -/
inductive StoreVal where
  | regVal : List Nat → Nat → StoreVal
  | authVal : List Nat → StoreVal
deriving DecidableEq, Repr

/-- One Redis key with its value and absolute expiry time (seconds). -/
structure StoreEntry where
  key : String
  value : StoreVal
  expireAt : Nat
deriving DecidableEq, Repr

/-- The Redis database restricted to the keys this app uses. -/
abbrev Store := List StoreEntry

/-- `s["state"]` of a popped dict: both shapes the routes store carry it. -/
def StoreVal.stateField : StoreVal → List Nat
  | .regVal s _ => s
  | .authVal s => s

/-- `_key` from redis_store.py: `f"{prefix}:{user}"`.  The Python parameter
is named `prefix`; here it is called `kind` (the spec's name for it). -/
def mkKey (kind user : String) : String := kind ++ ":" ++ user

/-- `set_state`: `r.setex(_key(kind, user), ttl_seconds, json.dumps(data))`.
SETEX overwrites any existing entry under the key and arms a fresh TTL. -/
def set_state (store : Store) (now : Nat) (kind user : String)
    (data : StoreVal) (ttl_seconds : Nat) : Store :=
  ⟨mkKey kind user, data, now + ttl_seconds⟩ ::
    List.filter (fun e => e.key ≠ mkKey kind user) store

/-- The default `ttl_seconds = 300` of `set_state`. -/
def DEFAULT_TTL : Nat := 300

/-- Redis `GET`: a present but expired key reads as absent (Redis enforces
TTL itself; a key set at `t` with TTL `ttl` is gone once `now ≥ t + ttl`). -/
def storeGet (store : Store) (now : Nat) (key : String) : Option StoreVal :=
  match List.find? (fun e => e.key = key) store with
  | some e => if now < e.expireAt then some e.value else none
  | none => none

/-- `pop_state`: pipelined `GET key; DEL key` executed as one MULTI/EXEC
transaction, hence a single atomic read-and-delete step.  Returns the value
read (None if absent or expired) together with the store afterwards. -/
def pop_state (store : Store) (now : Nat) (kind user : String) :
    Option StoreVal × Store :=
  let key := mkKey kind user
  (storeGet store now key, List.filter (fun e => e.key ≠ key) store)

/-! ## URL-safe base64 (fido2.utils.websafe_encode / websafe_decode)

`websafe_encode(data)` is `urlsafe_b64encode(data)` with the `=` padding
stripped; `websafe_decode` re-pads and decodes.  Bytes and characters are
modelled as `Nat` (character codes), a byte string as a `List Nat` of
elements < 256. -/

/-- The URL-safe base64 alphabet: index 0..63 to character code. -/
def b64char (i : Nat) : Nat :=
  if i < 26 then 65 + i
  else if i < 52 then 97 + (i - 26)
  else if i < 62 then 48 + (i - 52)
  else if i = 62 then 45
  else 95

/-- Inverse alphabet lookup: character code to index, `none` off-alphabet. -/
def b64val (c : Nat) : Option Nat :=
  if 65 ≤ c ∧ c ≤ 90 then some (c - 65)
  else if 97 ≤ c ∧ c ≤ 122 then some (26 + (c - 97))
  else if 48 ≤ c ∧ c ≤ 57 then some (52 + (c - 48))
  else if c = 45 then some 62
  else if c = 95 then some 63
  else none

/-- `websafe_encode`: groups of 3 bytes become 4 alphabet characters; a
final group of 1 or 2 bytes becomes 2 or 3 characters (padding stripped). -/
def websafe_encode : List Nat → List Nat
  | [] => []
  | [b0] => [b64char (b0 / 4), b64char (b0 % 4 * 16)]
  | [b0, b1] =>
      [b64char (b0 / 4), b64char (b0 % 4 * 16 + b1 / 16), b64char (b1 % 16 * 4)]
  | b0 :: b1 :: b2 :: rest =>
      b64char (b0 / 4) :: b64char (b0 % 4 * 16 + b1 / 16) ::
        b64char (b1 % 16 * 4 + b2 / 64) :: b64char (b2 % 64) ::
        websafe_encode rest

/-- `websafe_decode`: re-pad to a multiple of 4 and base64-decode; `none`
models the `binascii` error on malformed input (bad length or character). -/
def websafe_decode : List Nat → Option (List Nat)
  | [] => some []
  | [c0, c1] => do
      let v0 ← b64val c0
      let v1 ← b64val c1
      some [v0 * 4 + v1 / 16]
  | [c0, c1, c2] => do
      let v0 ← b64val c0
      let v1 ← b64val c1
      let v2 ← b64val c2
      some [v0 * 4 + v1 / 16, v1 % 16 * 16 + v2 / 4]
  | c0 :: c1 :: c2 :: c3 :: rest => do
      let v0 ← b64val c0
      let v1 ← b64val c1
      let v2 ← b64val c2
      let v3 ← b64val c3
      let tail ← websafe_decode rest
      some ((v0 * 4 + v1 / 16) :: (v1 % 16 * 16 + v2 / 4) ::
        (v2 % 4 * 64 + v3) :: tail)
  | [_] => none

/-- A byte string: every element fits in one byte. -/
def BytesWF (l : List Nat) : Prop := ∀ x ∈ l, x < 256

instance (l : List Nat) : Decidable (BytesWF l) := by
  unfold BytesWF
  infer_instance

theorem b64val_b64char : ∀ i < 64, b64val (b64char i) = some i := by decide

theorem websafe_decode_encode (l : List Nat) (hl : BytesWF l) :
    websafe_decode (websafe_encode l) = some l := by
  induction l using websafe_encode.induct with
  | case1 =>
      simp [websafe_encode, websafe_decode]
  | case2 b0 =>
      have h0 : b0 < 256 := hl b0 (by simp)
      have e0 := b64val_b64char (b0 / 4) (by omega)
      have e1 := b64val_b64char (b0 % 4 * 16) (by omega)
      have r0 : b0 / 4 * 4 + (b0 % 4 * 16) / 16 = b0 := by omega
      simp only [websafe_encode, websafe_decode, e0, e1, Option.bind_eq_bind,
        Option.some_bind, r0]
  | case3 b0 b1 =>
      have h0 : b0 < 256 := hl b0 (by simp)
      have h1 : b1 < 256 := hl b1 (by simp)
      have e0 := b64val_b64char (b0 / 4) (by omega)
      have e1 := b64val_b64char (b0 % 4 * 16 + b1 / 16) (by omega)
      have e2 := b64val_b64char (b1 % 16 * 4) (by omega)
      have r0 : b0 / 4 * 4 + (b0 % 4 * 16 + b1 / 16) / 16 = b0 := by omega
      have r1 : (b0 % 4 * 16 + b1 / 16) % 16 * 16 + (b1 % 16 * 4) / 4 = b1 := by
        omega
      simp only [websafe_encode, websafe_decode, e0, e1, e2,
        Option.bind_eq_bind, Option.some_bind, r0, r1]
  | case4 b0 b1 b2 rest ih =>
      have h0 : b0 < 256 := hl b0 (by simp)
      have h1 : b1 < 256 := hl b1 (by simp)
      have h2 : b2 < 256 := hl b2 (by simp)
      have hrest : BytesWF rest := fun x hx => hl x (by simp [hx])
      have e0 := b64val_b64char (b0 / 4) (by omega)
      have e1 := b64val_b64char (b0 % 4 * 16 + b1 / 16) (by omega)
      have e2 := b64val_b64char (b1 % 16 * 4 + b2 / 64) (by omega)
      have e3 := b64val_b64char (b2 % 64) (by omega)
      have r0 : b0 / 4 * 4 + (b0 % 4 * 16 + b1 / 16) / 16 = b0 := by omega
      have r1 : (b0 % 4 * 16 + b1 / 16) % 16 * 16 +
          (b1 % 16 * 4 + b2 / 64) / 4 = b1 := by omega
      have r2 : (b1 % 16 * 4 + b2 / 64) % 4 * 64 + b2 % 64 = b2 := by omega
      simp only [websafe_encode, websafe_decode, e0, e1, e2, e3,
        Option.bind_eq_bind, Option.some_bind, ih hrest, r0, r1, r2]

/-! ## CBOR (cbor2.dumps / cbor2.loads, RFC 8949)

The routes serialize exactly two value shapes with cbor2: the ceremony
`state` dict (text keys, text values) and the COSE public-key map
`dict(auth_data.credential_data.public_key)` (int keys, int or byte-string
values).  Both are flat maps of scalars, so the model covers CBOR maps
(major type 5) whose keys and values are unsigned integers, negative
integers, byte strings or text strings, in the shortest-form (canonical)
header encoding that cbor2 emits. -/

/-- Big-endian bytes of `n`, width `k` (most significant first). -/
def beBytes : Nat → Nat → List Nat
  | 0, _ => []
  | k + 1, n => (n / 256 ^ k % 256) :: beBytes k n

/-- Read `k` big-endian bytes off the input, accumulating into `acc`. -/
def takeBE : Nat → Nat → List Nat → Option (Nat × List Nat)
  | 0, acc, input => some (acc, input)
  | _ + 1, _, [] => none
  | k + 1, acc, b :: rest => takeBE k (acc * 256 + b) rest

/-- RFC 8949 header: major type (3 bits) and argument in shortest form. -/
def encodeHead (major n : Nat) : List Nat :=
  if n < 24 then [major * 32 + n]
  else if n < 256 then [major * 32 + 24, n]
  else if n < 65536 then (major * 32 + 25) :: beBytes 2 n
  else if n < 4294967296 then (major * 32 + 26) :: beBytes 4 n
  else (major * 32 + 27) :: beBytes 8 n

/-- Header decoding: returns major type, argument and remaining input. -/
def decodeHead : List Nat → Option (Nat × Nat × List Nat)
  | [] => none
  | b :: input =>
    if b % 32 < 24 then some (b / 32, b % 32, input)
    else if b % 32 = 24 then
      (takeBE 1 0 input).map (fun p => (b / 32, p.1, p.2))
    else if b % 32 = 25 then
      (takeBE 2 0 input).map (fun p => (b / 32, p.1, p.2))
    else if b % 32 = 26 then
      (takeBE 4 0 input).map (fun p => (b / 32, p.1, p.2))
    else if b % 32 = 27 then
      (takeBE 8 0 input).map (fun p => (b / 32, p.1, p.2))
    else none

theorem takeBE_beBytes (k : Nat) :
    ∀ acc n rest, takeBE k acc (beBytes k n ++ rest) =
      some (acc * 256 ^ k + n % 256 ^ k, rest) := by
  induction k with
  | zero =>
      intro acc n rest
      simp [takeBE, beBytes, Nat.mod_one]
  | succ k ih =>
      intro acc n rest
      have h : (acc * 256 + n / 256 ^ k % 256) * 256 ^ k + n % 256 ^ k =
          acc * 256 ^ (k + 1) + n % 256 ^ (k + 1) := by
        rw [pow_succ, Nat.mod_mul]
        ring
      simp only [beBytes, List.cons_append, takeBE, List.append_eq]
      rw [ih, h]

theorem decodeHead_encodeHead (major n : Nat) (hm : major < 8)
    (hn : n < 18446744073709551616) (rest : List Nat) :
    decodeHead (encodeHead major n ++ rest) = some (major, n, rest) := by
  by_cases h1 : n < 24
  · have d1 : (major * 32 + n) % 32 = n := by omega
    have d2 : (major * 32 + n) / 32 = major := by omega
    simp [encodeHead, decodeHead, h1, d1, d2]
  · by_cases h2 : n < 256
    · have d1 : (major * 32 + 24) % 32 = 24 := by omega
      have d2 : (major * 32 + 24) / 32 = major := by omega
      simp [encodeHead, decodeHead, h1, h2, d1, d2, takeBE]
    · by_cases h3 : n < 65536
      · have d1 : (major * 32 + 25) % 32 = 25 := by omega
        have d2 : (major * 32 + 25) / 32 = major := by omega
        have hb := takeBE_beBytes 2 0 n rest
        have hp : (256 : Nat) ^ 2 = 65536 := by norm_num
        rw [hp] at hb
        simp [encodeHead, decodeHead, h1, h2, h3, d1, d2, hb,
          Nat.mod_eq_of_lt h3]
      · by_cases h4 : n < 4294967296
        · have d1 : (major * 32 + 26) % 32 = 26 := by omega
          have d2 : (major * 32 + 26) / 32 = major := by omega
          have hb := takeBE_beBytes 4 0 n rest
          have hp : (256 : Nat) ^ 4 = 4294967296 := by norm_num
          rw [hp] at hb
          simp [encodeHead, decodeHead, h1, h2, h3, h4, d1, d2, hb,
            Nat.mod_eq_of_lt h4]
        · have d1 : (major * 32 + 27) % 32 = 27 := by omega
          have d2 : (major * 32 + 27) / 32 = major := by omega
          have hb := takeBE_beBytes 8 0 n rest
          have hp : (256 : Nat) ^ 8 = 18446744073709551616 := by norm_num
          rw [hp] at hb
          simp [encodeHead, decodeHead, h1, h2, h3, h4, d1, d2, hb,
            Nat.mod_eq_of_lt hn]

/-- Take exactly `k` elements, failing when the input is shorter. -/
def takeN (k : Nat) (l : List Nat) : Option (List Nat × List Nat) :=
  if k ≤ l.length then some (l.take k, l.drop k) else none

theorem takeN_append (xs rest : List Nat) :
    takeN xs.length (xs ++ rest) = some (xs, rest) := by
  simp [takeN, List.take_left, List.drop_left]

/-- A CBOR scalar as the routes use them: unsigned integer, negative
integer (`nint n` denotes `-1 - n`), byte string or UTF-8 text string
(modelled as its bytes). -/
inductive CScalar where
  | uint : Nat → CScalar
  | nint : Nat → CScalar
  | bstr : List Nat → CScalar
  | tstr : List Nat → CScalar
deriving DecidableEq, Repr

def encodeScalar : CScalar → List Nat
  | .uint n => encodeHead 0 n
  | .nint n => encodeHead 1 n
  | .bstr bs => encodeHead 2 bs.length ++ bs
  | .tstr ts => encodeHead 3 ts.length ++ ts

def decodeScalar (input : List Nat) : Option (CScalar × List Nat) :=
  match decodeHead input with
  | none => none
  | some (major, n, rest) =>
    if major = 0 then some (.uint n, rest)
    else if major = 1 then some (.nint n, rest)
    else if major = 2 then
      match takeN n rest with
      | some (bs, rest2) => some (.bstr bs, rest2)
      | none => none
    else if major = 3 then
      match takeN n rest with
      | some (ts, rest2) => some (.tstr ts, rest2)
      | none => none
    else none

/-- CBOR's 64-bit argument bound on each scalar, and the contents of byte
and text strings being actual bytes (always true of Python `bytes`/UTF-8). -/
def ScalarWF : CScalar → Prop
  | .uint n => n < 18446744073709551616
  | .nint n => n < 18446744073709551616
  | .bstr bs => bs.length < 18446744073709551616 ∧ BytesWF bs
  | .tstr ts => ts.length < 18446744073709551616 ∧ BytesWF ts

instance (s : CScalar) : Decidable (ScalarWF s) := by
  cases s <;> (unfold ScalarWF; infer_instance)

theorem decodeScalar_encodeScalar (s : CScalar) (hs : ScalarWF s)
    (rest : List Nat) :
    decodeScalar (encodeScalar s ++ rest) = some (s, rest) := by
  cases s with
  | uint n =>
      simp [encodeScalar, decodeScalar,
        decodeHead_encodeHead 0 n (by omega) hs rest]
  | nint n =>
      simp [encodeScalar, decodeScalar,
        decodeHead_encodeHead 1 n (by omega) hs rest]
  | bstr bs =>
      rw [encodeScalar, List.append_assoc]
      simp [decodeScalar,
        decodeHead_encodeHead 2 bs.length (by omega) hs.1 (bs ++ rest),
        takeN_append]
  | tstr ts =>
      rw [encodeScalar, List.append_assoc]
      simp [decodeScalar,
        decodeHead_encodeHead 3 ts.length (by omega) hs.1 (ts ++ rest),
        takeN_append]

def encodePairs : List (CScalar × CScalar) → List Nat
  | [] => []
  | (k, v) :: rest => encodeScalar k ++ (encodeScalar v ++ encodePairs rest)

def decodePairs : Nat → List Nat → Option (List (CScalar × CScalar) × List Nat)
  | 0, input => some ([], input)
  | n + 1, input =>
    match decodeScalar input with
    | none => none
    | some (k, r1) =>
      match decodeScalar r1 with
      | none => none
      | some (v, r2) =>
        match decodePairs n r2 with
        | none => none
        | some (m, r3) => some ((k, v) :: m, r3)

theorem decodePairs_encodePairs (m : List (CScalar × CScalar))
    (hm : ∀ p ∈ m, ScalarWF p.1 ∧ ScalarWF p.2) (rest : List Nat) :
    decodePairs m.length (encodePairs m ++ rest) = some (m, rest) := by
  induction m with
  | nil => simp [encodePairs, decodePairs]
  | cons p tail ih =>
      obtain ⟨k, v⟩ := p
      have hk : ScalarWF k := (hm (k, v) (by simp)).1
      have hv : ScalarWF v := (hm (k, v) (by simp)).2
      have htail : ∀ p ∈ tail, ScalarWF p.1 ∧ ScalarWF p.2 :=
        fun p hp => hm p (by simp [hp])
      simp only [encodePairs, List.length_cons, List.append_assoc,
        decodePairs, decodeScalar_encodeScalar k hk,
        decodeScalar_encodeScalar v hv, ih htail]

/-- `cbor2.dumps` on a flat map (the dict of a COSE key or ceremony state):
map header then the key/value pairs in order. -/
def cbor_dumps (m : List (CScalar × CScalar)) : List Nat :=
  encodeHead 5 m.length ++ encodePairs m

/-- `cbor2.loads` restricted to a top-level map; `none` models the decode
exception on malformed bytes. -/
def cbor_loads (input : List Nat) : Option (List (CScalar × CScalar)) :=
  match decodeHead input with
  | none => none
  | some (major, n, rest) =>
    if major = 5 then
      match decodePairs n rest with
      | some (m, _) => some m
      | none => none
    else none

/-- Well-formed flat map: entry count and every scalar within CBOR's
64-bit argument bounds (always true of the maps the routes build). -/
def CMapWF (m : List (CScalar × CScalar)) : Prop :=
  m.length < 18446744073709551616 ∧ ∀ p ∈ m, ScalarWF p.1 ∧ ScalarWF p.2

instance (m : List (CScalar × CScalar)) : Decidable (CMapWF m) := by
  unfold CMapWF
  infer_instance

theorem cbor_loads_dumps (m : List (CScalar × CScalar)) (hm : CMapWF m) :
    cbor_loads (cbor_dumps m) = some m := by
  have h1 := decodeHead_encodeHead 5 m.length (by omega) hm.1 (encodePairs m)
  have h2 := decodePairs_encodePairs m hm.2 []
  rw [List.append_nil] at h2
  simp [cbor_dumps, cbor_loads, h1, h2]

theorem beBytes_bytesWF (k n : Nat) : BytesWF (beBytes k n) := by
  induction k generalizing n with
  | zero =>
      intro x hx
      simp [beBytes] at hx
  | succ k ih =>
      intro x hx
      simp only [beBytes, List.mem_cons] at hx
      rcases hx with h | h
      · omega
      · exact ih n x h

theorem encodeHead_bytesWF (major n : Nat) (hm : major < 8) :
    BytesWF (encodeHead major n) := by
  unfold encodeHead
  split
  · intro x hx
    simp at hx
    omega
  · split
    · intro x hx
      simp at hx
      rcases hx with h | h <;> omega
    · split
      · intro x hx
        simp at hx
        rcases hx with h | h
        · omega
        · exact beBytes_bytesWF 2 n x h
      · split
        · intro x hx
          simp at hx
          rcases hx with h | h
          · omega
          · exact beBytes_bytesWF 4 n x h
        · intro x hx
          simp at hx
          rcases hx with h | h
          · omega
          · exact beBytes_bytesWF 8 n x h

theorem bytesWF_append {l1 l2 : List Nat} (h1 : BytesWF l1) (h2 : BytesWF l2) :
    BytesWF (l1 ++ l2) := by
  intro x hx
  rcases List.mem_append.mp hx with h | h
  · exact h1 x h
  · exact h2 x h

theorem encodeScalar_bytesWF (s : CScalar) (hs : ScalarWF s) :
    BytesWF (encodeScalar s) := by
  cases s with
  | uint n => exact encodeHead_bytesWF 0 n (by omega)
  | nint n => exact encodeHead_bytesWF 1 n (by omega)
  | bstr bs =>
      exact bytesWF_append (encodeHead_bytesWF 2 bs.length (by omega)) hs.2
  | tstr ts =>
      exact bytesWF_append (encodeHead_bytesWF 3 ts.length (by omega)) hs.2

theorem encodePairs_bytesWF (m : List (CScalar × CScalar))
    (hm : ∀ p ∈ m, ScalarWF p.1 ∧ ScalarWF p.2) :
    BytesWF (encodePairs m) := by
  induction m with
  | nil =>
      intro x hx
      simp [encodePairs] at hx
  | cons p tail ih =>
      obtain ⟨k, v⟩ := p
      exact bytesWF_append (encodeScalar_bytesWF k (hm (k, v) (by simp)).1)
        (bytesWF_append (encodeScalar_bytesWF v (hm (k, v) (by simp)).2)
          (ih fun q hq => hm q (by simp [hq])))

theorem cbor_dumps_bytesWF (m : List (CScalar × CScalar)) (hm : CMapWF m) :
    BytesWF (cbor_dumps m) :=
  bytesWF_append (encodeHead_bytesWF 5 m.length (by omega))
    (encodePairs_bytesWF m hm.2)

/-- The stored challenge blob determines the ceremony state: two states
serialized by Begin are equal whenever their stored wrappings are. -/
theorem stored_blob_inj (s1 s2 : List (CScalar × CScalar))
    (h1 : CMapWF s1) (h2 : CMapWF s2)
    (heq : websafe_encode (cbor_dumps s1) = websafe_encode (cbor_dumps s2)) :
    s1 = s2 := by
  have d1 := websafe_decode_encode (cbor_dumps s1) (cbor_dumps_bytesWF s1 h1)
  have d2 := websafe_decode_encode (cbor_dumps s2) (cbor_dumps_bytesWF s2 h2)
  rw [heq, d2] at d1
  have hbe : cbor_dumps s1 = cbor_dumps s2 := (Option.some.inj d1).symm
  have l1 := cbor_loads_dumps s1 h1
  rw [hbe, cbor_loads_dumps s2 h2] at l1
  exact (Option.some.inj l1).symm

/-! ## Relational model (models.py)

Surrogate primary keys and server-default timestamps that the ceremony
logic never reads (`Credential.id`, `User.registered_at`) are omitted. -/

structure User where
  id : Nat
  username : String
  display_name : String
deriving DecidableEq, Repr

structure Credential where
  user_id : Nat
  credential_id : List Nat
  public_key : List Nat
  sign_count : Nat
  aaguid : String
  transports : String
  last_used_at : Option Nat
deriving DecidableEq, Repr

structure DB where
  users : List User
  credentials : List Credential
deriving DecidableEq, Repr

/-- `get_user`: `db.query(User).filter(User.username == username).one_or_none()`. -/
def get_user (db : DB) (username : String) : Option User :=
  List.find? (fun u => u.username = username) db.users

/-- `db.query(Credential).filter(Credential.credential_id == cred_id).one_or_none()`. -/
def findCred (db : DB) (cid : List Nat) : Option Credential :=
  List.find? (fun c => c.credential_id = cid) db.credentials

/-- `db.query(User).filter(User.id == cred.user_id).one()` — the `some` case;
`none` models the `NoResultFound` exception. -/
def userById (db : DB) (uid : Nat) : Option User :=
  List.find? (fun u => u.id = uid) db.users

/-- Fresh autoincrement id for an inserted User. -/
def nextUserId (db : DB) : Nat :=
  List.foldr max 0 (List.map (fun u => u.id) db.users) + 1

/-! ## security.py -/

/-- The JWT claims of `issue_token` (HS256 signing is outside the model;
the claim set determines the token). `ttl_seconds` keeps its default 3600. -/
structure Token where
  sub : String
  iat : Nat
  exp : Nat
deriving DecidableEq, Repr

def issue_token (sub : String) (now : Nat) : Token :=
  ⟨sub, now, now + 3600⟩

/-! ## The four ceremony endpoints (routes/fido.py)

Each endpoint is a function of the request payload, the current time and
the world (database + challenge store), returning the HTTP outcome and the
world afterwards.  The fido2 library calls whose internals are outside
this repository (`server.register_begin` / `register_complete` /
`authenticate_begin` / `authenticate_complete`) are abstracted as
parameters carrying their outcome for the given request:

* `stateBlob` — the CBOR bytes `cbor2.dumps(state)` of the ceremony state
  the library returned at Begin (it contains the random challenge);
* `register_complete : Option RegOutcome` — `none` models the library
  raising on a bad attestation response, `some` its parsed result;
* `authenticate_complete : Option Nat` — `none` models the library
  raising on a bad assertion, `some newCount` the verified
  `result.counter`.

`session_scope` (db.py) commits on normal exit and rolls back when the
body raises, so every error path returns the caller's database unchanged
and a success path returns the committed database. -/

inductive ApiError where
  | usernameRequired    -- 400 "username required"
  | regStateExpired     -- 400 "registration state expired or missing"
  | authStateExpired    -- 400 "authentication state expired or missing"
  | userNotFound        -- 404 "user not found" (register_finish)
  | userOrCredsNotFound -- 404 "user or credentials not found" (login_start)
  | credentialNotFound  -- 404 "credential not found" (login_finish)
  | decodeFailure       -- websafe/cbor/payload decode exception → HTTP 500
  | verificationFailed  -- fido2 *_complete exception → HTTP 500
  | uniqueViolation     -- IntegrityError: credential_id unique constraint → 500
  | ownerMissing        -- NoResultFound from the owner `.one()` lookup → 500
deriving DecidableEq, Repr

structure World where
  db : DB
  store : Store
deriving DecidableEq

deriving instance DecidableEq for Except

/-- `payload.get("displayName") or username` (empty string is falsy). -/
def displayNameOr (displayName : Option String) (username : String) : String :=
  match displayName with
  | some d => if d = "" then username else d
  | none => username

/-- `register_start`.  Creates the user when absent, then stores
`{"state": websafe_encode(cbor2.dumps(state)), "user_id": uid}` under
`"reg:" ++ username` with the default 300 s TTL.  `state` is the ceremony
state dict `server.register_begin` returned (it contains the random
challenge), as a CBOR map.  The exclude-descriptor list only feeds the
returned options, which are opaque here. -/
def register_start (payload_username displayName : Option String)
    (state : List (CScalar × CScalar)) (now : Nat) (w : World) :
    Except ApiError Unit × World :=
  match payload_username with
  | none => (.error .usernameRequired, w)
  | some username =>
    if username = "" then (.error .usernameRequired, w)
    else
      let dn := displayNameOr displayName username
      let step : DB × Nat :=
        match get_user w.db username with
        | some u => (w.db, u.id)
        | none =>
          let uid := nextUserId w.db
          (⟨w.db.users ++ [⟨uid, username, dn⟩], w.db.credentials⟩, uid)
      let state_blob := cbor_dumps state
      let store1 := set_state w.store now "reg" username
        (.regVal (websafe_encode state_blob) step.2) DEFAULT_TTL
      (.ok (), ⟨step.1, store1⟩)

/-- Parsed result of `server.register_complete`: the fields of
`auth_data` the route persists. -/
structure RegOutcome where
  credential_id : List Nat
  public_key_cose : List (CScalar × CScalar)
  counter : Nat
  aaguid : String
deriving DecidableEq, Repr

/-- `register_finish`. -/
def register_finish (payload_username : Option String)
    (register_complete : Option RegOutcome) (transports : String)
    (now : Nat) (w : World) : Except ApiError Unit × World :=
  match payload_username with
  | none => (.error .usernameRequired, w)
  | some username =>
    if username = "" then (.error .usernameRequired, w)
    else
      let popped := pop_state w.store now "reg" username
      let store1 := popped.2
      match popped.1 with
      | none => (.error .regStateExpired, ⟨w.db, store1⟩)
      | some s =>
        match websafe_decode s.stateField with
        | none => (.error .decodeFailure, ⟨w.db, store1⟩)
        | some state_blob =>
          match cbor_loads state_blob with
          | none => (.error .decodeFailure, ⟨w.db, store1⟩)
          | some _state =>
            match register_complete with
            | none => (.error .verificationFailed, ⟨w.db, store1⟩)
            | some rd =>
              match get_user w.db username with
              | none => (.error .userNotFound, ⟨w.db, store1⟩)
              | some user =>
                if w.db.credentials.any
                    (fun c => c.credential_id == rd.credential_id) then
                  (.error .uniqueViolation, ⟨w.db, store1⟩)
                else
                  (.ok (), ⟨⟨w.db.users, w.db.credentials ++
                    [⟨user.id, rd.credential_id,
                      cbor_dumps rd.public_key_cose, rd.counter,
                      rd.aaguid, transports, none⟩]⟩, store1⟩)

/-- `login_start`.  `state` is the dict `server.authenticate_begin`
returned, as a CBOR map. -/
def login_start (payload_username : Option String)
    (state : List (CScalar × CScalar))
    (now : Nat) (w : World) : Except ApiError Unit × World :=
  match payload_username with
  | none => (.error .usernameRequired, w)
  | some username =>
    if username = "" then (.error .usernameRequired, w)
    else
      match get_user w.db username with
      | none => (.error .userOrCredsNotFound, w)
      | some user =>
        if w.db.credentials.any (fun c => c.user_id == user.id) then
          let store1 := set_state w.store now "auth" username
            (.authVal (websafe_encode (cbor_dumps state))) DEFAULT_TTL
          (.ok (), ⟨w.db, store1⟩)
        else (.error .userOrCredsNotFound, w)

/-- `login_finish`.  `rawId` is the outcome of
`websafe_decode(payload.get("rawId") or payload["id"])`; `none` models the
decode exception on a malformed id. -/
def login_finish (payload_username : Option String)
    (rawId : Option (List Nat)) (authenticate_complete : Option Nat)
    (now : Nat) (w : World) : Except ApiError Token × World :=
  match payload_username with
  | none => (.error .usernameRequired, w)
  | some username =>
    if username = "" then (.error .usernameRequired, w)
    else
      let popped := pop_state w.store now "auth" username
      let store1 := popped.2
      match popped.1 with
      | none => (.error .authStateExpired, ⟨w.db, store1⟩)
      | some s =>
        match websafe_decode s.stateField with
        | none => (.error .decodeFailure, ⟨w.db, store1⟩)
        | some state_blob =>
          match cbor_loads state_blob with
          | none => (.error .decodeFailure, ⟨w.db, store1⟩)
          | some _state =>
            match rawId with
            | none => (.error .decodeFailure, ⟨w.db, store1⟩)
            | some cred_id =>
              match findCred w.db cred_id with
              | none => (.error .credentialNotFound, ⟨w.db, store1⟩)
              | some cred =>
                match cbor_loads cred.public_key with
                | none => (.error .decodeFailure, ⟨w.db, store1⟩)
                | some _cose =>
                  match authenticate_complete with
                  | none => (.error .verificationFailed, ⟨w.db, store1⟩)
                  | some newCount =>
                    let db1 : DB := ⟨w.db.users, List.map
                      (fun c => if c.credential_id = cred_id then
                        ⟨c.user_id, c.credential_id, c.public_key, newCount,
                          c.aaguid, c.transports, some now⟩
                        else c) w.db.credentials⟩
                    match userById w.db cred.user_id with
                    | none => (.error .ownerMissing, ⟨w.db, store1⟩)
                    | some owner =>
                      (.ok (issue_token owner.username now), ⟨db1, store1⟩)

/-! ## Helper lemmas about the challenge store and the endpoints -/

theorem storeGet_filter_self (store : Store) (now : Nat) (key : String) :
    storeGet (List.filter (fun e => e.key ≠ key) store) now key = none := by
  unfold storeGet
  cases hfind : List.find? (fun e => e.key = key)
      (List.filter (fun e => e.key ≠ key) store) with
  | none => rfl
  | some e =>
      have hmem := List.mem_of_find?_eq_some hfind
      have hpred := List.find?_some hfind
      have hne := List.of_mem_filter hmem
      simp at hpred hne
      exact absurd hpred hne

theorem storeGet_set_same (store : Store) (now1 now2 : Nat) (k u : String)
    (data : StoreVal) (ttl : Nat) :
    storeGet (set_state store now1 k u data ttl) now2 (mkKey k u) =
      if now2 < now1 + ttl then some data else none := by
  unfold set_state storeGet
  rw [List.find?_cons_of_pos]
  simp

theorem pop_set_same (store : Store) (now1 now2 : Nat) (k u : String)
    (data : StoreVal) (ttl : Nat) :
    (pop_state (set_state store now1 k u data ttl) now2 k u).1 =
      if now2 < now1 + ttl then some data else none := by
  unfold pop_state
  exact storeGet_set_same store now1 now2 k u data ttl

theorem pop_state_deletes (store : Store) (now : Nat) (k u : String) :
    (pop_state store now k u).2 =
      List.filter (fun e => e.key ≠ mkKey k u) store := rfl

/-- Whatever `login_finish` answers for a nonempty username, the
`"auth:" ++ username` key is gone from the store afterwards. -/
theorem login_finish_store_after (username : String) (hu : username ≠ "")
    (rawId : Option (List Nat)) (ac : Option Nat) (now : Nat) (w : World) :
    (login_finish (some username) rawId ac now w).2.store =
      List.filter (fun e => e.key ≠ mkKey "auth" username) w.store := by
  simp only [login_finish, pop_state]
  rw [if_neg hu]
  repeat' split
  all_goals rfl

/-- Same for `register_finish` and the `"reg:" ++ username` key. -/
theorem register_finish_store_after (username : String) (hu : username ≠ "")
    (rc : Option RegOutcome) (tr : String) (now : Nat) (w : World) :
    (register_finish (some username) rc tr now w).2.store =
      List.filter (fun e => e.key ≠ mkKey "reg" username) w.store := by
  simp only [register_finish, pop_state]
  rw [if_neg hu]
  repeat' split
  all_goals rfl

/-- After `register_start`, the user row exists and the store holds the
fresh `"reg"` state for it, with the default TTL. -/
theorem register_start_after (username : String) (hu : username ≠ "")
    (dn : Option String) (st : List (CScalar × CScalar)) (now : Nat)
    (w : World) :
    ∃ u, get_user (register_start (some username) dn st now w).2.db
        username = some u ∧
      u.username = username ∧
      (register_start (some username) dn st now w).2.store =
        set_state w.store now "reg" username
          (.regVal (websafe_encode (cbor_dumps st)) u.id) DEFAULT_TTL := by
  simp only [register_start]
  rw [if_neg hu]
  cases hget : get_user w.db username with
  | some u =>
      refine ⟨u, ?_, ?_, rfl⟩
      · simpa [hget] using hget
      · have := List.find?_some hget
        simpa using this
  | none =>
      refine ⟨⟨nextUserId w.db, username, displayNameOr dn username⟩, ?_, rfl, rfl⟩
      simp only [get_user] at hget ⊢
      rw [List.find?_append, hget]
      simp

/-! ## Claim theorems -/

/-- C10: every one of the four ceremony endpoints rejects a request whose
username field is missing or empty with the 400 "username required" error,
returning the world untouched — so neither the challenge store nor the
database is read or written first. -/
theorem endpoints_require_username (pu : Option String)
    (hpu : pu = none ∨ pu = some "") :
    (∀ dn st now w, register_start pu dn st now w =
      (.error .usernameRequired, w)) ∧
    (∀ rc tr now w, register_finish pu rc tr now w =
      (.error .usernameRequired, w)) ∧
    (∀ st now w, login_start pu st now w =
      (.error .usernameRequired, w)) ∧
    (∀ rawId ac now w, login_finish pu rawId ac now w =
      (.error .usernameRequired, w)) := by
  rcases hpu with h | h <;> subst h <;>
    exact ⟨fun dn st now w => rfl, fun rc tr now w => rfl,
      fun st now w => rfl, fun rawId ac now w => rfl⟩

theorem endpoints_require_username_witness :
    login_finish none none none 0 ⟨⟨[], []⟩, []⟩ =
      (.error .usernameRequired, ⟨⟨[], []⟩, []⟩) :=
  (endpoints_require_username none (Or.inl rfl)).2.2.2 none none 0
    ⟨⟨[], []⟩, []⟩

/-- C9: `login_start` fails with its 404 error both when the user is absent
(the spec's UserNotFound) and when the user exists with zero credentials
(the spec's NoCredentialsRegistered) — the code raises the single detail
"user or credentials not found" for both — and in either case the world,
challenge store included, is returned unchanged. -/
theorem login_start_missing_user_or_creds (username : String)
    (hu : username ≠ "") (st : List (CScalar × CScalar)) (now : Nat)
    (w : World) :
    (get_user w.db username = none →
      login_start (some username) st now w =
        (.error .userOrCredsNotFound, w)) ∧
    (∀ user, get_user w.db username = some user →
      (∀ c ∈ w.db.credentials, c.user_id ≠ user.id) →
      login_start (some username) st now w =
        (.error .userOrCredsNotFound, w)) := by
  constructor
  · intro hget
    simp only [login_start, hget]
    rw [if_neg hu]
  · intro user hget hnone
    have hany : (w.db.credentials.any fun c => c.user_id == user.id) = false := by
      rw [List.any_eq_false]
      intro c hc
      simp [hnone c hc]
    simp only [login_start, hget, hany]
    rw [if_neg hu]
    simp

theorem login_start_missing_user_or_creds_witness :
    login_start (some "alice") [] 0 ⟨⟨[], []⟩, []⟩ =
        (.error .userOrCredsNotFound, ⟨⟨[], []⟩, []⟩) ∧
      login_start (some "bob") [] 0 ⟨⟨[⟨7, "bob", "bob"⟩], []⟩, []⟩ =
        (.error .userOrCredsNotFound, ⟨⟨[⟨7, "bob", "bob"⟩], []⟩, []⟩) :=
  ⟨(login_start_missing_user_or_creds "alice" (by decide) [] 0
      ⟨⟨[], []⟩, []⟩).1 rfl,
    (login_start_missing_user_or_creds "bob" (by decide) [] 0
      ⟨⟨[⟨7, "bob", "bob"⟩], []⟩, []⟩).2 ⟨7, "bob", "bob"⟩ rfl
      (by intro c hc; simp at hc)⟩

/-- C8: `set_state` stores the value under the key built from the kind and
the username with expiry `now + ttl`; the default TTL is 300 s; a value is
retrievable strictly before expiry and gone from `now + ttl` on; both
Begin endpoints store their challenge state with the default TTL; and a
Finish call arriving at or after expiry fails with the
state-expired-or-missing error. -/
theorem set_state_ttl (rawId : Option (List Nat)) (ac : Option Nat)
    (rc : Option RegOutcome) (tr : String) :
    DEFAULT_TTL = 300 ∧
    (∀ (store : Store) (now : Nat) (k u : String) (v : StoreVal) (ttl : Nat),
      set_state store now k u v ttl =
        ⟨mkKey k u, v, now + ttl⟩ ::
          List.filter (fun e => e.key ≠ mkKey k u) store) ∧
    (∀ (store : Store) (now now2 : Nat) (k u : String) (v : StoreVal)
        (ttl : Nat), now2 < now + ttl →
      (pop_state (set_state store now k u v ttl) now2 k u).1 = some v) ∧
    (∀ (store : Store) (now now2 : Nat) (k u : String) (v : StoreVal)
        (ttl : Nat), now + ttl ≤ now2 →
      (pop_state (set_state store now k u v ttl) now2 k u).1 = none) ∧
    (∀ username, username ≠ "" → ∀ dn st now w, ∃ v,
      (register_start (some username) dn st now w).2.store =
        set_state w.store now "reg" username v DEFAULT_TTL) ∧
    (∀ username, username ≠ "" → ∀ user st now (w : World),
      get_user w.db username = some user →
      (w.db.credentials.any fun c => c.user_id == user.id) = true →
      (login_start (some username) st now w).2.store =
        set_state w.store now "auth" username
          (.authVal (websafe_encode (cbor_dumps st))) DEFAULT_TTL) ∧
    (∀ username, username ≠ "" → ∀ (store : Store) v (db1 : DB) now now2,
      now + DEFAULT_TTL ≤ now2 →
      (login_finish (some username) rawId ac now2
        ⟨db1, set_state store now "auth" username v DEFAULT_TTL⟩).1 =
          .error .authStateExpired) ∧
    (∀ username, username ≠ "" → ∀ (store : Store) v (db1 : DB) now now2,
      now + DEFAULT_TTL ≤ now2 →
      (register_finish (some username) rc tr now2
        ⟨db1, set_state store now "reg" username v DEFAULT_TTL⟩).1 =
          .error .regStateExpired) := by
  refine ⟨rfl, fun store now k u v ttl => rfl, ?_, ?_, ?_, ?_, ?_, ?_⟩
  · intro store now now2 k u v ttl hlt
    rw [pop_set_same, if_pos hlt]
  · intro store now now2 k u v ttl hge
    rw [pop_set_same, if_neg (by omega)]
  · intro username hu dn st now w
    obtain ⟨u, _, _, hstore⟩ := register_start_after username hu dn st now w
    exact ⟨.regVal (websafe_encode (cbor_dumps st)) u.id, hstore⟩
  · intro username hu user st now w hget hany
    simp only [login_start, hget, hany]
    rw [if_neg hu]
    simp
  · intro username hu store v db1 now now2 hge
    have hpop := pop_set_same store now now2 "auth" username v DEFAULT_TTL
    rw [if_neg (by omega)] at hpop
    simp only [login_finish]
    rw [if_neg hu, hpop]
  · intro username hu store v db1 now now2 hge
    have hpop := pop_set_same store now now2 "reg" username v DEFAULT_TTL
    rw [if_neg (by omega)] at hpop
    simp only [register_finish]
    rw [if_neg hu, hpop]

theorem set_state_ttl_witness :
    (pop_state (set_state [] 0 "auth" "alice" (.authVal []) 300)
        299 "auth" "alice").1 = some (.authVal []) ∧
    (login_finish (some "alice") none none 300
        ⟨⟨[], []⟩, set_state [] 0 "auth" "alice" (.authVal []) 300⟩).1 =
      .error .authStateExpired :=
  ⟨(set_state_ttl none none none "").2.2.1 [] 0 299 "auth" "alice"
      (.authVal []) 300 (by decide),
    (set_state_ttl none none none "").2.2.2.2.2.2.1 "alice"
      (by decide) [] (.authVal []) ⟨[], []⟩ 0 300 (by decide)⟩

/-- C3: `pop_state` is an atomic single-use read-and-delete — after a pop
the key is gone, so a second pop (at any time, with no intervening
`set_state`) returns none; a pop on an absent key returns none; a pop on
an expired entry returns none; and of two `login_finish` calls consuming
one Begin, if the first did not fail for a missing challenge then the
second fails with the challenge-expired-or-missing error. -/
theorem pop_state_single_use :
    (∀ (store store1 : Store) (now now2 : Nat) (k u : String)
        (v : Option StoreVal),
      pop_state store now k u = (v, store1) →
      (pop_state store1 now2 k u).1 = none) ∧
    (∀ (store : Store) (now : Nat) (k u : String),
      List.find? (fun e => e.key = mkKey k u) store = none →
      (pop_state store now k u).1 = none) ∧
    (∀ (store : Store) (now : Nat) (k u : String) (e : StoreEntry),
      List.find? (fun e2 => e2.key = mkKey k u) store = some e →
      e.expireAt ≤ now →
      (pop_state store now k u).1 = none) ∧
    (∀ username, username ≠ "" →
      ∀ rawId1 ac1 now1 (w : World) rawId2 ac2 now2,
      (login_finish (some username) rawId1 ac1 now1 w).1 ≠
        .error .authStateExpired →
      (login_finish (some username) rawId2 ac2 now2
        (login_finish (some username) rawId1 ac1 now1 w).2).1 =
          .error .authStateExpired) := by
  refine ⟨?_, ?_, ?_, ?_⟩
  · intro store store1 now now2 k u v h
    have h2 : store1 = List.filter (fun e => e.key ≠ mkKey k u) store := by
      have := congrArg Prod.snd h
      simpa [pop_state] using this.symm
    rw [h2]
    exact storeGet_filter_self store now2 (mkKey k u)
  · intro store now k u hfind
    show storeGet store now (mkKey k u) = none
    unfold storeGet
    rw [hfind]
  · intro store now k u e hfind hexp
    show storeGet store now (mkKey k u) = none
    simp only [storeGet, hfind]
    rw [if_neg (by omega)]
  · intro username hu rawId1 ac1 now1 w rawId2 ac2 now2 _hfirst
    have hstore := login_finish_store_after username hu rawId1 ac1 now1 w
    generalize hg : (login_finish (some username) rawId1 ac1 now1 w).2 = w1
    rw [hg] at hstore
    have hpop : (pop_state w1.store now2 "auth" username).1 = none := by
      show storeGet w1.store now2 (mkKey "auth" username) = none
      rw [hstore]
      exact storeGet_filter_self w.store now2 (mkKey "auth" username)
    simp only [login_finish]
    rw [if_neg hu, hpop]

theorem pop_state_single_use_witness :
    (pop_state [] 1 "auth" "alice").1 = none ∧
    (login_finish (some "alice") (some [1]) none 1
        (login_finish (some "alice") (some [9]) none 0
          ⟨⟨[], []⟩, [⟨mkKey "auth" "alice",
            .authVal (websafe_encode (cbor_dumps [])), 300⟩]⟩).2).1 =
      .error .authStateExpired :=
  ⟨pop_state_single_use.2.1 [] 1 "auth" "alice" rfl,
    pop_state_single_use.2.2.2 "alice" (by decide) (some [9]) none 0
      ⟨⟨[], []⟩, [⟨mkKey "auth" "alice",
        .authVal (websafe_encode (cbor_dumps [])), 300⟩]⟩
      (some [1]) none 1 (by decide)⟩

/-- C6: `set_state` is last-writer-wins per key — after two stores under
one key only the second value can be popped — and two `register_start`
calls for one username leave exactly the second call's challenge state in
the store: the first challenge is no longer obtainable, so only the second
Begin's state can complete a `register_finish`. -/
theorem set_state_last_writer_wins :
    (∀ (store : Store) (now1 now2 now3 : Nat) (k u : String)
        (v1 v2 : StoreVal) (ttl1 ttl2 : Nat), now3 < now2 + ttl2 →
      (pop_state (set_state (set_state store now1 k u v1 ttl1)
        now2 k u v2 ttl2) now3 k u).1 = some v2) ∧
    (∀ username, username ≠ "" → ∀ dn1 dn2 st1 st2 now1 now2 now3 w,
      now3 < now2 + DEFAULT_TTL →
      ∃ uid,
        (pop_state (register_start (some username) dn2 st2 now2
            (register_start (some username) dn1 st1 now1 w).2).2.store
          now3 "reg" username).1 =
          some (.regVal (websafe_encode (cbor_dumps st2)) uid) ∧
        (CMapWF st1 → CMapWF st2 → st1 ≠ st2 → ∀ uid2,
          (pop_state (register_start (some username) dn2 st2 now2
              (register_start (some username) dn1 st1 now1 w).2).2.store
            now3 "reg" username).1 ≠
            some (.regVal (websafe_encode (cbor_dumps st1)) uid2))) := by
  constructor
  · intro store now1 now2 now3 k u v1 v2 ttl1 ttl2 hlt
    rw [pop_set_same, if_pos hlt]
  · intro username hu dn1 dn2 st1 st2 now1 now2 now3 w hlt
    obtain ⟨u2, _, _, hstore2⟩ := register_start_after username hu dn2 st2
      now2 (register_start (some username) dn1 st1 now1 w).2
    refine ⟨u2.id, ?_, ?_⟩
    · rw [hstore2, pop_set_same, if_pos hlt]
    · intro hwf1 hwf2 hne uid2 heq
      rw [hstore2, pop_set_same, if_pos hlt] at heq
      have hv := Option.some.inj heq
      injection hv with hb hid
      exact hne (stored_blob_inj st2 st1 hwf2 hwf1 hb).symm

theorem set_state_last_writer_wins_witness :
    (pop_state (set_state (set_state [] 0 "reg" "alice"
        (.regVal [] 1) 300) 5 "reg" "alice" (.regVal [65] 1) 300)
      10 "reg" "alice").1 = some (.regVal [65] 1) ∧
    ∃ uid,
      (pop_state (register_start (some "alice") none
          [(.uint 1, .uint 2)] 5
          (register_start (some "alice") none [] 0
            ⟨⟨[], []⟩, []⟩).2).2.store 10 "reg" "alice").1 =
        some (.regVal (websafe_encode
          (cbor_dumps [(.uint 1, .uint 2)])) uid) ∧
      (CMapWF [] → CMapWF [(.uint 1, .uint 2)] →
        ([] : List (CScalar × CScalar)) ≠ [(.uint 1, .uint 2)] → ∀ uid2,
        (pop_state (register_start (some "alice") none
            [(.uint 1, .uint 2)] 5
            (register_start (some "alice") none [] 0
              ⟨⟨[], []⟩, []⟩).2).2.store 10 "reg" "alice").1 ≠
          some (.regVal (websafe_encode (cbor_dumps [])) uid2)) :=
  ⟨set_state_last_writer_wins.1 [] 0 5 10 "reg" "alice"
      (.regVal [] 1) (.regVal [65] 1) 300 300 (by decide),
    set_state_last_writer_wins.2 "alice" (by decide) none none
      [] [(.uint 1, .uint 2)] 0 5 10 ⟨⟨[], []⟩, []⟩ (by decide)⟩

/-- Case analysis of the database `register_finish` leaves behind: either
untouched (every failure path — `session_scope` rolled back) or the
committed insert of the freshly attested credential. -/
theorem register_finish_db_cases (username : String) (hu : username ≠ "")
    (rc : Option RegOutcome) (tr : String) (now : Nat) (w : World) :
    (register_finish (some username) rc tr now w).2.db = w.db ∨
    ∃ rd user, rc = some rd ∧ get_user w.db username = some user ∧
      (w.db.credentials.any fun c => c.credential_id == rd.credential_id)
        = false ∧
      (register_finish (some username) rc tr now w).2.db =
        ⟨w.db.users, w.db.credentials ++ [⟨user.id, rd.credential_id,
          cbor_dumps rd.public_key_cose, rd.counter, rd.aaguid, tr,
          none⟩]⟩ := by
  simp only [register_finish]
  rw [if_neg hu]
  repeat' split
  all_goals first
    | exact Or.inl rfl
    | (rename_i hget hany
       exact Or.inr ⟨_, _, rfl, hget, by simpa using hany, rfl⟩)

/-- Case analysis of the database `login_finish` leaves behind: untouched
on every failure path, or the committed counter/timestamp update. -/
theorem login_finish_db_cases (username : String) (hu : username ≠ "")
    (rawId : Option (List Nat)) (ac : Option Nat) (now : Nat) (w : World) :
    (login_finish (some username) rawId ac now w).2.db = w.db ∨
    ∃ credId newCount,
      (login_finish (some username) rawId ac now w).2.db =
        ⟨w.db.users, List.map (fun c => if c.credential_id = credId then
          (⟨c.user_id, c.credential_id, c.public_key, newCount, c.aaguid,
            c.transports, some now⟩ : Credential) else c)
          w.db.credentials⟩ := by
  simp only [login_finish]
  rw [if_neg hu]
  repeat' split
  all_goals first
    | exact Or.inl rfl
    | exact Or.inr ⟨_, _, rfl⟩

/-- C4: a `register_finish` or `login_finish` call that fails — anywhere
after the challenge state was popped — leaves the database exactly as it
was: `session_scope` commits only on normal exit and rolls back on an
exception, so no partially inserted Credential row and no partially
updated `sign_count`/`last_used_at` survives a failure. -/
theorem finish_failure_leaves_db_unchanged :
    (∀ pu rc tr now (w : World) e,
      (register_finish pu rc tr now w).1 = .error e →
      (register_finish pu rc tr now w).2.db = w.db) ∧
    (∀ pu rawId ac now (w : World) e,
      (login_finish pu rawId ac now w).1 = .error e →
      (login_finish pu rawId ac now w).2.db = w.db) := by
  constructor
  · intro pu rc tr now w e
    cases pu with
    | none => intro _; rfl
    | some username =>
        by_cases hu : username = ""
        · subst hu
          intro _
          rfl
        · simp only [register_finish]
          rw [if_neg hu]
          repeat' split
          all_goals intro h
          all_goals first | rfl | simp at h
  · intro pu rawId ac now w e
    cases pu with
    | none => intro _; rfl
    | some username =>
        by_cases hu : username = ""
        · subst hu
          intro _
          rfl
        · simp only [login_finish]
          rw [if_neg hu]
          repeat' split
          all_goals intro h
          all_goals first | rfl | simp at h

theorem finish_failure_leaves_db_unchanged_witness :
    (register_finish (some "alice") none "" 0 ⟨⟨[], []⟩, []⟩).2.db =
      ⟨[], []⟩ ∧
    (login_finish (some "alice") none none 0 ⟨⟨[], []⟩, []⟩).2.db =
      ⟨[], []⟩ :=
  ⟨finish_failure_leaves_db_unchanged.1 (some "alice") none "" 0
      ⟨⟨[], []⟩, []⟩ .regStateExpired rfl,
    finish_failure_leaves_db_unchanged.2 (some "alice") none none 0
      ⟨⟨[], []⟩, []⟩ .authStateExpired rfl⟩

/-- The counter/timestamp update of `login_finish` never alters a row's
`credential_id`. -/
theorem updateCred_preserves_id (credId : List Nat) (newCount now : Nat)
    (c : Credential) :
    ((if c.credential_id = credId then
      (⟨c.user_id, c.credential_id, c.public_key, newCount, c.aaguid,
        c.transports, some now⟩ : Credential) else c)).credential_id =
      c.credential_id := by
  split <;> rfl

/-- No two stored credentials share `credential_id` bytes (the `unique`
constraint on `credentials.credential_id`). -/
def CredsUnique (db : DB) : Prop :=
  List.Pairwise (fun a b => a.credential_id ≠ b.credential_id)
    db.credentials

/-- C5: `credential_id` is globally unique — both Finish endpoints
preserve the pairwise-distinctness invariant in every reachable state,
and a `register_finish` presenting a `credential_id` already present for
any user never succeeds and never changes the database; when it reaches
the insert it fails with the unique-constraint violation (the code's
IntegrityError, the spec's CredentialAlreadyRegistered). -/
theorem credential_id_globally_unique :
    (∀ pu rc tr now (w : World), CredsUnique w.db →
      CredsUnique (register_finish pu rc tr now w).2.db) ∧
    (∀ pu rawId ac now (w : World), CredsUnique w.db →
      CredsUnique (login_finish pu rawId ac now w).2.db) ∧
    (∀ username (rd : RegOutcome) tr now (w : World) c,
      c ∈ w.db.credentials → c.credential_id = rd.credential_id →
      (register_finish (some username) (some rd) tr now w).1 ≠ .ok () ∧
      (register_finish (some username) (some rd) tr now w).2.db = w.db) ∧
    (∀ username, username ≠ "" →
      ∀ (rd : RegOutcome) tr now (w : World) st uid (user : User) c,
      CMapWF st →
      storeGet w.store now (mkKey "reg" username) =
        some (.regVal (websafe_encode (cbor_dumps st)) uid) →
      get_user w.db username = some user →
      c ∈ w.db.credentials → c.credential_id = rd.credential_id →
      (register_finish (some username) (some rd) tr now w).1 =
        .error .uniqueViolation) := by
  refine ⟨?_, ?_, ?_, ?_⟩
  · intro pu rc tr now w hw
    cases pu with
    | none => exact hw
    | some username =>
        by_cases hu : username = ""
        · subst hu
          exact hw
        · rcases register_finish_db_cases username hu rc tr now w with
            hdb | ⟨rd, user, _, _, hany, hdb⟩
          · rw [CredsUnique, hdb]
            exact hw
          · rw [CredsUnique, hdb]
            simp only [List.pairwise_append]
            refine ⟨hw, List.pairwise_singleton _ _, ?_⟩
            intro a ha b hb
            simp only [List.mem_singleton] at hb
            subst hb
            intro hEq
            rw [List.any_eq_false] at hany
            exact hany a ha (by simp [hEq])
  · intro pu rawId ac now w hw
    cases pu with
    | none => exact hw
    | some username =>
        by_cases hu : username = ""
        · subst hu
          exact hw
        · rcases login_finish_db_cases username hu rawId ac now w with
            hdb | ⟨credId, newCount, hdb⟩
          · rw [CredsUnique, hdb]
            exact hw
          · rw [CredsUnique, hdb]
            simp only [List.pairwise_map]
            refine hw.imp ?_
            intro a b hab
            simpa only [updateCred_preserves_id] using hab
  · intro username rd tr now w c hc hcid
    by_cases hu : username = ""
    · subst hu
      exact ⟨fun h => Except.noConfusion h, rfl⟩
    · have hany : (w.db.credentials.any
          fun c2 => c2.credential_id == rd.credential_id) = true := by
        rw [List.any_eq_true]
        exact ⟨c, hc, by simp [hcid]⟩
      constructor
      · simp only [register_finish]
        rw [if_neg hu]
        repeat' split
        all_goals exact fun h => Except.noConfusion h
      · simp only [register_finish]
        rw [if_neg hu]
        repeat' split
        all_goals rfl
  · intro username hu rd tr now w st uid user c hwf hget huser hc hcid
    have hblob : websafe_decode (websafe_encode (cbor_dumps st)) =
        some (cbor_dumps st) :=
      websafe_decode_encode _ (cbor_dumps_bytesWF st hwf)
    have hload := cbor_loads_dumps st hwf
    have hany : (w.db.credentials.any
        fun c2 => c2.credential_id == rd.credential_id) = true := by
      rw [List.any_eq_true]
      exact ⟨c, hc, by simp [hcid]⟩
    have hpop : (pop_state w.store now "reg" username).1 =
        some (.regVal (websafe_encode (cbor_dumps st)) uid) := hget
    simp only [register_finish]
    rw [if_neg hu]
    simp only [hpop, StoreVal.stateField, hblob, hload, huser, hany]
    simp

/-- Success path of `login_finish`, fully characterized: with a stored
challenge state present, the asserted credential found, its COSE key
decodable and the library verification succeeding with counter
`newCount`, the call returns a token for the credential OWNER's username
and commits `sign_count := newCount`, `last_used_at := now`.  Note what
is absent: no comparison of `newCount` against the stored `sign_count`,
and no comparison of the owner's username against the request username. -/
theorem login_finish_success_eq (username : String) (hu : username ≠ "")
    (credId : List Nat) (newCount now : Nat) (w : World)
    (st : List (CScalar × CScalar)) (hst : CMapWF st)
    (hstate : storeGet w.store now (mkKey "auth" username) =
      some (.authVal (websafe_encode (cbor_dumps st))))
    (cred : Credential) (hcred : findCred w.db credId = some cred)
    (pk : List (CScalar × CScalar)) (hpk : cred.public_key = cbor_dumps pk)
    (hpkwf : CMapWF pk)
    (owner : User) (howner : userById w.db cred.user_id = some owner) :
    login_finish (some username) (some credId) (some newCount) now w =
      (.ok (issue_token owner.username now),
        ⟨⟨w.db.users, List.map (fun c => if c.credential_id = credId then
            (⟨c.user_id, c.credential_id, c.public_key, newCount, c.aaguid,
              c.transports, some now⟩ : Credential) else c)
          w.db.credentials⟩,
        List.filter (fun e => e.key ≠ mkKey "auth" username) w.store⟩) := by
  have hblob : websafe_decode (websafe_encode (cbor_dumps st)) =
      some (cbor_dumps st) :=
    websafe_decode_encode _ (cbor_dumps_bytesWF st hst)
  have hload := cbor_loads_dumps st hst
  have hpkload : cbor_loads cred.public_key = some pk := by
    rw [hpk]
    exact cbor_loads_dumps pk hpkwf
  have hpop : (pop_state w.store now "auth" username).1 =
      some (.authVal (websafe_encode (cbor_dumps st))) := hstate
  simp only [login_finish]
  rw [if_neg hu]
  simp only [hpop, StoreVal.stateField, hblob, hload, hcred, hpkload, howner]
  rfl

def c1User : User := ⟨1, "alice", "alice"⟩

def c1Cred : Credential :=
  ⟨1, [170, 1], cbor_dumps [(.uint 1, .uint 2)], 5, "", "", none⟩

def c1World : World :=
  ⟨⟨[c1User], [c1Cred]⟩,
    [⟨mkKey "auth" "alice", .authVal (websafe_encode (cbor_dumps [])), 300⟩]⟩

/-- C1 counterexample: with stored `sign_count = 5`, a `login_finish`
whose verified response reports counter 3 does NOT fail with any
counter-regression error — it succeeds, issues a token, and overwrites
the stored counter with 3. -/
theorem login_finish_counter_regression_accepted :
    c1Cred.sign_count = 5 ∧
    (login_finish (some "alice") (some [170, 1]) (some 3) 0 c1World).1 =
      .ok ⟨"alice", 0, 3600⟩ ∧
    (login_finish (some "alice") (some [170, 1]) (some 3) 0
        c1World).2.db.credentials =
      [⟨1, [170, 1], cbor_dumps [(.uint 1, .uint 2)], 3, "", "", some 0⟩] :=
  ⟨rfl, rfl, rfl⟩

/-- C1 (amended): `login_finish` performs no anti-clone counter check at
all — whenever verification succeeds with reported counter `newCount`,
the call succeeds and the stored `sign_count` becomes `newCount`, for
every `newCount`, including `newCount ≤ sign_count` (so with stored count
5, counters 3 and 5 are accepted just like 6; only the true half of the
claim holds: `newCount = 6` succeeds and stores 6). -/
theorem login_finish_no_counter_check (username : String)
    (hu : username ≠ "") (credId : List Nat) (newCount now : Nat)
    (w : World) (st : List (CScalar × CScalar)) (hst : CMapWF st)
    (hstate : storeGet w.store now (mkKey "auth" username) =
      some (.authVal (websafe_encode (cbor_dumps st))))
    (cred : Credential) (hcred : findCred w.db credId = some cred)
    (pk : List (CScalar × CScalar)) (hpk : cred.public_key = cbor_dumps pk)
    (hpkwf : CMapWF pk)
    (owner : User) (howner : userById w.db cred.user_id = some owner) :
    (login_finish (some username) (some credId) (some newCount) now w).1 =
      .ok (issue_token owner.username now) ∧
    (login_finish (some username) (some credId) (some newCount) now
        w).2.db.credentials =
      List.map (fun c => if c.credential_id = credId then
        (⟨c.user_id, c.credential_id, c.public_key, newCount, c.aaguid,
          c.transports, some now⟩ : Credential) else c)
        w.db.credentials := by
  rw [login_finish_success_eq username hu credId newCount now w st hst
    hstate cred hcred pk hpk hpkwf owner howner]
  exact ⟨rfl, rfl⟩

theorem login_finish_no_counter_check_witness :
    c1Cred.sign_count = 5 ∧ (3 : Nat) ≤ c1Cred.sign_count ∧
    (login_finish (some "alice") (some [170, 1]) (some 3) 0 c1World).1 =
      .ok (issue_token "alice" 0) ∧
    (login_finish (some "alice") (some [170, 1]) (some 3) 0
        c1World).2.db.credentials =
      List.map (fun c => if c.credential_id = [170, 1] then
        (⟨c.user_id, c.credential_id, c.public_key, 3, c.aaguid,
          c.transports, some 0⟩ : Credential) else c)
        c1World.db.credentials := by
  have h := login_finish_no_counter_check "alice" (by decide) [170, 1] 3 0
    c1World [] (by decide) rfl c1Cred rfl [(.uint 1, .uint 2)] rfl
    (by decide) c1User rfl
  exact ⟨rfl, by decide, h.1, h.2⟩

def c2Alice : User := ⟨1, "alice", "alice"⟩

def c2Bob : User := ⟨2, "bob", "bob"⟩

def c2Cred : Credential :=
  ⟨2, [170, 1], cbor_dumps [(.uint 1, .uint 2)], 0, "", "", none⟩

def c2World : World :=
  ⟨⟨[c2Alice, c2Bob], [c2Cred]⟩,
    [⟨mkKey "auth" "alice", .authVal (websafe_encode (cbor_dumps [])), 300⟩]⟩

/-- C2 counterexample: a `login_finish` for username "alice" asserting a
credential owned by "bob" does not fail with any user-mismatch error —
it succeeds and a token for "bob" is issued. -/
theorem login_finish_owner_mismatch_accepted :
    (login_finish (some "alice") (some [170, 1]) (some 1) 0 c2World).1 =
      .ok ⟨"bob", 0, 3600⟩ := rfl

/-- C2 (amended): `login_finish` never compares the resolved credential's
owner to the request username — when the credential belongs to a user
whose username differs from the request's and verification succeeds, the
call still succeeds and issues a token whose subject is the OWNER's
username. -/
theorem login_finish_no_owner_check (username : String)
    (hu : username ≠ "") (credId : List Nat) (newCount now : Nat)
    (w : World) (st : List (CScalar × CScalar)) (hst : CMapWF st)
    (hstate : storeGet w.store now (mkKey "auth" username) =
      some (.authVal (websafe_encode (cbor_dumps st))))
    (cred : Credential) (hcred : findCred w.db credId = some cred)
    (pk : List (CScalar × CScalar)) (hpk : cred.public_key = cbor_dumps pk)
    (hpkwf : CMapWF pk)
    (owner : User) (howner : userById w.db cred.user_id = some owner)
    (hmismatch : owner.username ≠ username) :
    (login_finish (some username) (some credId) (some newCount) now w).1 =
      .ok (issue_token owner.username now) := by
  rw [login_finish_success_eq username hu credId newCount now w st hst
    hstate cred hcred pk hpk hpkwf owner howner]

theorem login_finish_no_owner_check_witness :
    c2Cred.user_id = c2Bob.id ∧ c2Bob.username ≠ "alice" ∧
    (login_finish (some "alice") (some [170, 1]) (some 1) 0 c2World).1 =
      .ok (issue_token "bob" 0) := by
  have h := login_finish_no_owner_check "alice" (by decide) [170, 1] 1 0
    c2World [] (by decide) rfl c2Cred rfl [(.uint 1, .uint 2)] rfl
    (by decide) c2Bob rfl (by decide)
  exact ⟨rfl, by decide, h⟩

/-- C7: the engine's serializations round-trip losslessly — URL-safe
base64 without padding is exactly inverted on every byte string, the
CBOR encoding of the flat maps the routes serialize (ceremony state
dicts and COSE public-key maps) is exactly inverted including raw byte
fields, and composing the two (the `Put`-side wrapping against the
`Finish`-side unwrapping, and the stored COSE bytes against the decode
in `_attested_from_db`) recovers the original value. -/
theorem engine_serialization_roundtrip :
    (∀ b : List Nat, BytesWF b →
      websafe_decode (websafe_encode b) = some b) ∧
    (∀ m : List (CScalar × CScalar), CMapWF m →
      cbor_loads (cbor_dumps m) = some m) ∧
    (∀ st : List (CScalar × CScalar), CMapWF st →
      (websafe_decode (websafe_encode (cbor_dumps st))).bind cbor_loads =
        some st) := by
  refine ⟨fun b hb => websafe_decode_encode b hb,
    fun m hm => cbor_loads_dumps m hm, fun st hst => ?_⟩
  rw [websafe_decode_encode _ (cbor_dumps_bytesWF st hst)]
  simpa using cbor_loads_dumps st hst

theorem engine_serialization_roundtrip_witness :
    websafe_decode (websafe_encode [0, 255, 100, 7]) =
      some [0, 255, 100, 7] ∧
    cbor_loads (cbor_dumps [(.uint 1, .uint 2), (.uint 3, .nint 6),
      (.nint 0, .uint 1), (.nint 1, .bstr [4, 210, 255]),
      (.nint 2, .bstr [9, 0])]) =
      some [(.uint 1, .uint 2), (.uint 3, .nint 6), (.nint 0, .uint 1),
        (.nint 1, .bstr [4, 210, 255]), (.nint 2, .bstr [9, 0])] ∧
    (websafe_decode (websafe_encode (cbor_dumps
        [(.tstr [99], .tstr [120, 121, 122])]))).bind cbor_loads =
      some [(.tstr [99], .tstr [120, 121, 122])] :=
  ⟨engine_serialization_roundtrip.1 [0, 255, 100, 7] (by decide),
    engine_serialization_roundtrip.2.1 _ (by decide),
    engine_serialization_roundtrip.2.2 _ (by decide)⟩

def c5User : User := ⟨1, "alice", "alice"⟩

def c5Cred : Credential := ⟨1, [170, 1], [161, 1, 2], 0, "", "", none⟩

def c5World : World :=
  ⟨⟨[c5User], [c5Cred]⟩,
    [⟨mkKey "reg" "alice", .regVal (websafe_encode (cbor_dumps [])) 1,
      300⟩]⟩

def c5Rd : RegOutcome := ⟨[170, 1], [(.uint 1, .uint 2)], 0, ""⟩

theorem credential_id_globally_unique_witness :
    c5Cred.credential_id = c5Rd.credential_id ∧
    (register_finish (some "alice") (some c5Rd) "" 0 c5World).1 =
      .error .uniqueViolation ∧
    (register_finish (some "alice") (some c5Rd) "" 0 c5World).2.db =
      c5World.db ∧
    CredsUnique (register_finish (some "alice") (some c5Rd) "" 0
      c5World).2.db := by
  have h4 := credential_id_globally_unique.2.2.2 "alice" (by decide) c5Rd
    "" 0 c5World [] 1 c5User c5Cred (by decide) rfl rfl (by simp [c5World])
    rfl
  have h3 := credential_id_globally_unique.2.2.1 "alice" c5Rd "" 0 c5World
    c5Cred (by simp [c5World]) rfl
  have h1 := credential_id_globally_unique.1 (some "alice") (some c5Rd) ""
    0 c5World (by simp [CredsUnique, c5World])
  exact ⟨rfl, h4, h3.2, h1⟩


end Fido2Backend
